import Mathlib

/-!
Shallow embedding of `src/main.rs` of the Readme-Generator repository:
the `App` state (field registry, license catalog, modal editor state),
the key-event transition function of `run_app`, the preview renderer
`App::generate_preview`, and the final renderer `generate_readme`.
-/

namespace Readme

inductive InputMode where
  | Navigation
  | Editing
  deriving DecidableEq, Repr

structure Field where
  name : String
  value : String
  description : String
  deriving DecidableEq, Repr

structure App where
  input : String
  input_mode : InputMode
  fields : List Field
  current_field : Nat
  license_options : List String
  selected_license : Nat
  deriving DecidableEq, Repr

/-- `App::default()` from the source: the 13-field registry, the 5-entry
license catalog, Navigation mode, empty input, indices 0. -/
def App.default : App :=
  { input := ""
    input_mode := .Navigation
    fields :=
      [ { name := "Repository Name", value := "",
          description := "The name of your project/repository (e.g., username/repo)" }
      , { name := "Project Title", value := "",
          description := "A catchy title for your project" }
      , { name := "Short Description", value := "",
          description := "A brief one-line description of your project" }
      , { name := "Detailed Description", value := "",
          description := "A detailed explanation of what your project does and why it\x27s useful" }
      , { name := "Features", value := "",
          description := "Key features of your project (separate with semicolons)" }
      , { name := "Technologies", value := "",
          description := "Technologies used (separate with semicolons) e.g., React;TypeScript;Node.js" }
      , { name := "Prerequisites", value := "",
          description := "Required software/tools to run your project (separate with semicolons)" }
      , { name := "Installation", value := "",
          description := "Step-by-step installation instructions (separate steps with semicolons)" }
      , { name := "Usage Example", value := "",
          description := "Example code or commands to use your project" }
      , { name := "API Documentation", value := "",
          description := "Brief API documentation or endpoints (optional)" }
      , { name := "Contributing Guidelines", value := "",
          description := "How others can contribute to your project" }
      , { name := "Tests", value := "",
          description := "How to run tests (separate steps with semicolons)" }
      , { name := "Authors", value := "",
          description := "Project authors/maintainers (separate with semicolons)" } ]
    current_field := 0
    license_options :=
      [ "MIT License", "Apache License 2.0", "GNU GPL v3", "BSD 3-Clause", "ISC License" ]
    selected_license := 0 }

/-- `App::all_fields_filled`. -/
def all_fields_filled (a : App) : Bool :=
  a.fields.all (fun field => !field.value.isEmpty)

def defaultField : Field := { name := "", value := "", description := "" }

/-- `self.fields[i].value` (indexing a valid index in the source). -/
def fieldVal (a : App) (i : Nat) : String :=
  (a.fields.getD i defaultField).value

/-- `self.license_options[self.selected_license]`. -/
def licenseOf (a : App) : String :=
  a.license_options.getD a.selected_license ""

/-- Character-list splitter underlying Rust `str::split(delim)`; the result
always has at least one (possibly empty) piece. -/
def splitCharsOn (delim : Char) : List Char → List (List Char)
  | [] => [[]]
  | c :: cs =>
    let rest := splitCharsOn delim cs
    if c = delim then [] :: rest
    else (c :: rest.headD []) :: rest.tail

/-- Rust `value.split(';').collect::<Vec<_>>()`. -/
def splitOnSemi (s : String) : List String :=
  (splitCharsOn ';' s.data).map (fun cs => (⟨cs⟩ : String))

/-- Rust `str::trim` (whitespace model restricted to ASCII whitespace). -/
def trimStr (s : String) : String :=
  ⟨((s.data.dropWhile Char.isWhitespace).reverse.dropWhile Char.isWhitespace).reverse⟩

/-- Rust `str::to_lowercase` (ASCII model). -/
def toLowerStr (s : String) : String := ⟨s.data.map Char.toLower⟩

/-- Rust `String::pop`: drops the last character, no-op on the empty string. -/
def popStr (s : String) : String := ⟨s.data.dropLast⟩

/-- The `badges` vector of `generate_preview`: empty when the repository
name is empty, otherwise the four shields.io stars/forks/issues/license
badge lines. -/
def badges (repo_name : String) : List String :=
  if repo_name.isEmpty then [] else
    [ "[![Stars](https://img.shields.io/github/stars/" ++ repo_name ++
        "?style=flat-square)](https://github.com/" ++ repo_name ++ "/stargazers)"
    , "[![Forks](https://img.shields.io/github/forks/" ++ repo_name ++
        "?style=flat-square)](https://github.com/" ++ repo_name ++ "/network/members)"
    , "[![Issues](https://img.shields.io/github/issues/" ++ repo_name ++
        "?style=flat-square)](https://github.com/" ++ repo_name ++ "/issues)"
    , "[![License](https://img.shields.io/github/license/" ++ repo_name ++
        "?style=flat-square)](https://github.com/" ++ repo_name ++ "/blob/main/LICENSE)" ]

/-- The `tech_badges` vector of `generate_preview`: non-empty tokens,
trimmed and lower-cased, each turned into a shields.io badge image. -/
def tech_badges (technologies : List String) : List String :=
  (technologies.filter (fun t => !t.isEmpty)).map (fun t =>
    let tech := toLowerStr (trimStr t)
    "![" ++ tech ++ "](https://img.shields.io/badge/-" ++ tech ++
      "-informational?style=flat-square&logo=" ++ tech ++ "&logoColor=white)")

/-- The technology-badge slot of the preview template:
`if !tech_badges.is_empty() { tech_badges.join(" ") } else { "<Technology badges>" }`. -/
def tech_line (tb : List String) : String :=
  if !tb.isEmpty then String.intercalate " " tb else "<Technology badges>"

/-- `features_list` of `generate_preview`. -/
def features_list (features : List String) : String :=
  if features.isEmpty || (features.headD "").isEmpty then "- <Features of your project>"
  else String.intercalate "\n" (features.map (fun f => "- " ++ trimStr f))

/-- The inline Built-With list of `generate_preview`. -/
def technologies_list (technologies : List String) : String :=
  if technologies.isEmpty || (technologies.headD "").isEmpty then "- <Technologies used>"
  else String.intercalate "\n" (technologies.map (fun t => "- " ++ trimStr t))

/-- `prereq_list` of `generate_preview`. -/
def prereq_list (prerequisites : List String) : String :=
  if prerequisites.isEmpty || (prerequisites.headD "").isEmpty then "- <Prerequisites>"
  else String.intercalate "\n" (prerequisites.map (fun p => "- " ++ trimStr p))

/-- `install_steps` of `generate_preview` (1-based numbering). -/
def install_steps (installation : List String) : String :=
  if installation.isEmpty || (installation.headD "").isEmpty then "1. <Installation steps>"
  else String.intercalate "\n"
    (installation.enum.map (fun p => toString (p.1 + 1) ++ ". " ++ trimStr p.2))

/-- `test_steps` of `generate_preview` (1-based numbering). -/
def test_steps (tests : List String) : String :=
  if tests.isEmpty || (tests.headD "").isEmpty then "1. <Test instructions>"
  else String.intercalate "\n"
    (tests.enum.map (fun p => toString (p.1 + 1) ++ ". " ++ trimStr p.2))

/-- The inline Authors list of `generate_preview`. -/
def authors_list (authors : List String) : String :=
  if authors.isEmpty || (authors.headD "").isEmpty then "- <Project authors>"
  else String.intercalate "\n" (authors.map (fun a => "- " ++ trimStr a))

/-! Literal pieces of the two `format!` template strings, transcribed
byte-for-byte from `src/main.rs` (the non-ASCII escapes reproduce the
characters stored in the source file). Pieces shared by the preview and
the final template are defined once. -/

def tocAbout : String :=
  "</div>\n\n## üìã Table of Contents\n- [About](#about)\n- [Features](#features)\n- [Built With](#built-with)\n- [Getting Started](#getting-started)\n  - [Prerequisites](#prerequisites)\n  - [Installation](#installation)\n- [Usage](#usage)\n- [API Documentation](#api-documentation)\n- [Testing](#testing)\n- [Contributing](#contributing)\n- [License](#license)\n- [Contact](#contact)\n\n## üîç About\n"

def secFeatures : String := "\n\n## ‚ú® Features\n"

def secBuilt : String := "\n\n## üõ†Ô∏è Built With\n"

def secGetting : String := "\n\n## üöÄ Getting Started\n\n### Prerequisites\n"

def secInstall : String := "\n\n### Installation\n"

def secUsage : String := "\n\n## üí° Usage\n```bash\n"

def secApi : String := "\n```\n\n## üìö API Documentation\n```\n"

def secTesting : String := "\n```\n\n## üß™ Testing\n"

def secContrib : String := "\n\n## ü§ù Contributing\n"

def secLicenseHdr : String := "\n\n## üìù License\n"

def licenseLeadIn : String := "This project is licensed under the "

def authorsHdr : String :=
  " - see the [LICENSE](LICENSE) file for details.\n\n## üë• Authors\n"

def footerPiece : String :=
  "\n\n---\n<div align=\"center\">\nMade with ‚ù§Ô∏è by contributors\n</div>"

/-- The part of the `App::generate_preview` template that precedes the
license substitution. -/
def previewHead (title short badgeBlock repo tech about features built prereq
    install usage api tests contrib : String) : String :=
  "<div align=\"center\">\n\n# " ++ title ++ "\n\n" ++ short ++ "\n\n" ++ badgeBlock ++
  "\n\n[Documentation](#" ++ repo ++ ") ¬∑ [Report Bug](https://github.com/" ++ repo ++
  "/issues) ¬∑ [Request Feature](https://github.com/" ++ repo ++ "/issues)\n\n" ++ tech ++
  tocAbout ++ about ++ secFeatures ++ features ++ secBuilt ++ built ++ secGetting ++ prereq ++
  secInstall ++ install ++ secUsage ++ usage ++ secApi ++ api ++ secTesting ++ tests ++
  secContrib ++ contrib ++ secLicenseHdr

/-- The `format!` template of `App::generate_preview`, with one parameter
per distinct substituted expression (the repository name is substituted
three times, as in the source). -/
def previewTemplate (title short badgeBlock repo tech about features built prereq
    install usage api tests contrib license authors : String) : String :=
  previewHead title short badgeBlock repo tech about features built prereq
    install usage api tests contrib ++
  licenseLeadIn ++ license ++ authorsHdr ++ authors ++ footerPiece

/-- The part of the `generate_readme` template that precedes the license
substitution. -/
def finalHead (title short repo about features built prereq install usage api
    tests contrib : String) : String :=
  "<div align=\"center\">\n\n# " ++ title ++ "\n\n" ++ short ++
  "\n\n[![Stars](https://img.shields.io/github/stars/" ++ repo ++
  "?style=flat-square)](https://github.com/" ++ repo ++
  "/stargazers)\n[![Forks](https://img.shields.io/github/forks/" ++ repo ++
  "?style=flat-square)](https://github.com/" ++ repo ++
  "/network/members)\n[![Issues](https://img.shields.io/github/issues/" ++ repo ++
  "?style=flat-square)](https://github.com/" ++ repo ++
  "/issues)\n[![License](https://img.shields.io/github/license/" ++ repo ++
  "?style=flat-square)](https://github.com/" ++ repo ++
  "/blob/main/LICENSE)\n\n[Documentation](#" ++ repo ++
  ") ¬∑ [Report Bug](https://github.com/" ++ repo ++
  "/issues) ¬∑ [Request Feature](https://github.com/" ++ repo ++ "/issues)\n\n" ++
  tocAbout ++ about ++ secFeatures ++ features ++ secBuilt ++ built ++ secGetting ++ prereq ++
  secInstall ++ install ++ secUsage ++ usage ++ secApi ++ api ++ secTesting ++ tests ++
  secContrib ++ contrib ++ secLicenseHdr

/-- The `format!` template of `generate_readme`, with one parameter per
distinct substituted expression (the repository name is substituted
eleven times, as in the source). -/
def finalTemplate (title short repo about features built prereq install usage api
    tests contrib license authors : String) : String :=
  finalHead title short repo about features built prereq install usage api
    tests contrib ++
  licenseLeadIn ++ license ++ authorsHdr ++ authors ++ footerPiece

/-- `App::generate_preview` from the source. -/
def generate_preview (a : App) : String :=
  let repo_name := fieldVal a 0
  let project_title := fieldVal a 1
  let short_desc := fieldVal a 2
  let detailed_desc := fieldVal a 3
  let features := splitOnSemi (fieldVal a 4)
  let technologies := splitOnSemi (fieldVal a 5)
  let prerequisites := splitOnSemi (fieldVal a 6)
  let installation := splitOnSemi (fieldVal a 7)
  let usage := fieldVal a 8
  let api_docs := fieldVal a 9
  let contributing := fieldVal a 10
  let tests := splitOnSemi (fieldVal a 11)
  let authors := splitOnSemi (fieldVal a 12)
  let license := licenseOf a
  previewTemplate project_title short_desc
    (String.intercalate "\n" (badges repo_name)) repo_name
    (tech_line (tech_badges technologies)) detailed_desc
    (features_list features) (technologies_list technologies)
    (prereq_list prerequisites) (install_steps installation)
    usage api_docs (test_steps tests) contributing license
    (authors_list authors)

/-- The document string built by `generate_readme` (the final pass);
field values are substituted verbatim, without any splitting. -/
def generate_readme (a : App) : String :=
  finalTemplate (fieldVal a 1) (fieldVal a 2) (fieldVal a 0) (fieldVal a 3)
    (fieldVal a 4) (fieldVal a 5) (fieldVal a 6) (fieldVal a 7) (fieldVal a 8)
    (fieldVal a 9) (fieldVal a 11) (fieldVal a 10) (licenseOf a) (fieldVal a 12)

/-- The key-event vocabulary consumed by `run_app` (`KeyCode` cases the
match statements distinguish; `other` covers every remaining key). -/
inductive KeyEvent where
  | char (c : Char)
  | down
  | up
  | enter
  | tab
  | backspace
  | esc
  | other
  deriving DecidableEq, Repr

/-- The two ways `run_app` returns: `Ok(false)` on quit, `Ok(true)` on
completion. -/
inductive Signal where
  | abort
  | complete
  deriving DecidableEq, Repr

/-- `app.fields[i].value = v` (write at a valid index in the source). -/
def setFieldValue : List Field → Nat → String → List Field
  | [], _, _ => []
  | f :: fs, 0, v => { f with value := v } :: fs
  | f :: fs, n + 1, v => f :: setFieldValue fs n v

/-- The Navigation-mode arm of the `run_app` match (keys not handled by
the source's match fall through to a no-op). -/
def stepNav (a : App) : KeyEvent → App × Option Signal
  | .char c => if c = 'q' then (a, some .abort) else (a, none)
  | .down =>
    (if a.current_field < a.fields.length - 1 then
      { a with current_field := a.current_field + 1 } else a, none)
  | .up =>
    (if a.current_field > 0 then
      { a with current_field := a.current_field - 1 } else a, none)
  | .enter =>
    ({ a with input_mode := .Editing, input := fieldVal a a.current_field }, none)
  | .tab => if all_fields_filled a then (a, some .complete) else (a, none)
  | .backspace => (a, none)
  | .esc => (a, none)
  | .other => (a, none)

/-- The Editing-mode arm of the `run_app` match. -/
def stepEdit (a : App) : KeyEvent → App × Option Signal
  | .enter =>
    let fs := setFieldValue a.fields a.current_field a.input
    if a.current_field < fs.length - 1 then
      let nextInput := (fs.getD (a.current_field + 1) defaultField).value
      ({ a with fields := fs, current_field := a.current_field + 1, input := nextInput }, none)
    else
      ({ a with fields := fs, input := "", input_mode := .Navigation }, none)
  | .char c => ({ a with input := a.input.push c }, none)
  | .backspace => ({ a with input := popStr a.input }, none)
  | .esc => ({ a with input := "", input_mode := .Navigation }, none)
  | .down => (a, none)
  | .up => (a, none)
  | .tab => (a, none)
  | .other => (a, none)

/-- One iteration of the `run_app` event loop: the state after the key
event and the session-ending signal, if any. -/
def step (a : App) (k : KeyEvent) : App × Option Signal :=
  if a.input_mode = .Navigation then stepNav a k else stepEdit a k

/-- The state reached from `a` after processing a list of key events. -/
def run (a : App) (ks : List KeyEvent) : App :=
  ks.foldl (fun s k => (step s k).1) a

/-- Keys that only edit the buffer while in Editing mode. -/
def editOnly : KeyEvent → Bool
  | .char _ => true
  | .backspace => true
  | _ => false

/-- Decidable prefix test on character lists. -/
def leadsChars : List Char → List Char → Bool
  | [], _ => true
  | _ :: _, [] => false
  | a :: as, b :: bs => a = b && leadsChars as bs

/-- Decidable occurrence test on character lists. -/
def occursChars (needle : List Char) : List Char → Bool
  | [] => leadsChars needle []
  | c :: rest => leadsChars needle (c :: rest) || occursChars needle rest

/-- Decidable substring test used to evaluate rendered documents. -/
def strContainsSub (hay needle : String) : Bool :=
  occursChars needle.data hay.data

/-- Propositional substring statement. -/
def ContainsStr (hay needle : String) : Prop :=
  ∃ p q, hay = p ++ (needle ++ q)

/-- Test fixture: the default `App` with the 13 field values replaced. -/
def appOfValues (vs : List String) : App :=
  { App.default with
    fields := List.zipWith (fun f v => { f with value := v }) App.default.fields vs }

/-- Fixture for C1/C3: all fields filled, multi-valued fields holding
semicolon-separated entries. -/
def appSemis : App :=
  appOfValues ["u/r", "My Title", "Short", "Detailed", "a; b ;c", "React; TypeScript",
    "p1;p2", "i1; i2", "use x", "api docs", "contrib", "t1; t2", "alice;bob"]

/-- Fixture for C2: repository name and usage example empty, every other
field filled. -/
def appC2 : App :=
  appOfValues ["", "T2", "S2", "D2", "feat", "tech", "pre", "inst", "", "apid",
    "contr", "tst", "auth"]

/-- Fixture for C3: all fields filled, the Features value begins with a
semicolon. -/
def appC3 : App :=
  appOfValues ["u/r", "T3", "S3", "D3", ";a", "tech3", "pre3", "inst3", "use3",
    "api3", "con3", "tes3", "aut3"]

/-- Fixture for C9: same field values and license state as `App.default`,
different transient editor state. -/
def appOther : App :=
  { App.default with input := "zzz", input_mode := InputMode.Editing, current_field := 3 }

/-- Fixture for C4: `appSemis` about to commit an edit of field 0. -/
def appEditing : App :=
  { appSemis with input_mode := InputMode.Editing, input := "hello" }

set_option maxRecDepth 100000

theorem splitCharsOn_ne_nil (delim : Char) (cs : List Char) :
    splitCharsOn delim cs ≠ [] := by
  induction cs with
  | nil => simp [splitCharsOn]
  | cons c cs ih =>
    simp only [splitCharsOn]
    split <;> simp

theorem splitOnSemi_ne_nil (s : String) : splitOnSemi s ≠ [] := by
  simp [splitOnSemi, splitCharsOn_ne_nil]

theorem setFieldValue_length (fs : List Field) (i : Nat) (v : String) :
    (setFieldValue fs i v).length = fs.length := by
  induction fs generalizing i with
  | nil => rfl
  | cons f fs ih =>
    cases i with
    | zero => rfl
    | succ n => simp [setFieldValue, ih]

theorem setFieldValue_getD_self (fs : List Field) (i : Nat) (v : String)
    (h : i < fs.length) :
    ((setFieldValue fs i v).getD i defaultField).value = v := by
  induction fs generalizing i with
  | nil => simp at h
  | cons f fs ih =>
    cases i with
    | zero => rfl
    | succ n =>
      simp only [setFieldValue, List.getD_cons_succ]
      exact ih n (by simpa using h)

theorem setFieldValue_getD_ne (fs : List Field) (i j : Nat) (v : String)
    (h : j ≠ i) :
    (setFieldValue fs i v).getD j defaultField = fs.getD j defaultField := by
  induction fs generalizing i j with
  | nil => cases i <;> rfl
  | cons f fs ih =>
    cases i with
    | zero =>
      cases j with
      | zero => exact absurd rfl h
      | succ m => rfl
    | succ n =>
      cases j with
      | zero => rfl
      | succ m =>
        simp only [setFieldValue, List.getD_cons_succ]
        exact ih n m (fun e => h (by rw [e]))

theorem step_fields_length (a : App) (k : KeyEvent) :
    ((step a k).1).fields.length = a.fields.length := by
  cases k <;> simp only [step, stepNav, stepEdit] <;> split <;>
    (try split) <;> simp [setFieldValue_length]

theorem step_selected (a : App) (k : KeyEvent) :
    ((step a k).1).selected_license = a.selected_license := by
  cases k <;> simp only [step, stepNav, stepEdit] <;> split <;>
    (try split) <;> simp

theorem step_license_options (a : App) (k : KeyEvent) :
    ((step a k).1).license_options = a.license_options := by
  cases k <;> simp only [step, stepNav, stepEdit] <;> split <;>
    (try split) <;> simp

theorem step_current_lt (a : App) (k : KeyEvent)
    (h : a.current_field < a.fields.length) :
    ((step a k).1).current_field < ((step a k).1).fields.length := by
  cases k <;> simp only [step, stepNav, stepEdit] <;> split <;>
    (try split) <;> simp_all [setFieldValue_length] <;> omega

theorem run_nil (a : App) : run a [] = a := rfl

theorem run_cons (a : App) (k : KeyEvent) (ks : List KeyEvent) :
    run a (k :: ks) = run ((step a k).1) ks := rfl

theorem run_selected (ks : List KeyEvent) : ∀ (a : App),
    (run a ks).selected_license = a.selected_license := by
  induction ks with
  | nil => intro a; rfl
  | cons k ks ih => intro a; rw [run_cons, ih, step_selected]

theorem run_license_options (ks : List KeyEvent) : ∀ (a : App),
    (run a ks).license_options = a.license_options := by
  induction ks with
  | nil => intro a; rfl
  | cons k ks ih => intro a; rw [run_cons, ih, step_license_options]

theorem run_current_lt (ks : List KeyEvent) : ∀ (a : App),
    a.current_field < a.fields.length →
    (run a ks).current_field < (run a ks).fields.length := by
  induction ks with
  | nil => intro a h; exact h
  | cons k ks ih => intro a h; rw [run_cons]; exact ih _ (step_current_lt a k h)

theorem run_fields_length (ks : List KeyEvent) : ∀ (a : App),
    (run a ks).fields.length = a.fields.length := by
  induction ks with
  | nil => intro a; rfl
  | cons k ks ih => intro a; rw [run_cons, ih, step_fields_length]

theorem step_nav (a : App) (hm : a.input_mode = .Navigation) (k : KeyEvent) :
    step a k = stepNav a k := by
  simp [step, hm]

theorem step_edit (a : App) (hm : a.input_mode = .Editing) (k : KeyEvent) :
    step a k = stepEdit a k := by
  simp [step, hm]

theorem step_down_noop (a : App) (h : a.current_field = a.fields.length - 1) :
    (step a .down).1 = a := by
  simp only [step, stepNav, stepEdit]
  split
  · simp [h]
  · rfl

theorem step_up_noop (a : App) (h : a.current_field = 0) :
    (step a .up).1 = a := by
  simp only [step, stepNav, stepEdit]
  split
  · simp [h]
  · rfl

theorem run_editOnly (ks : List KeyEvent) : ∀ (a : App),
    a.input_mode = .Editing → (∀ k ∈ ks, editOnly k = true) →
    (run a ks).input_mode = .Editing ∧ (run a ks).fields = a.fields ∧
    (run a ks).current_field = a.current_field ∧
    (run a ks).selected_license = a.selected_license ∧
    (run a ks).license_options = a.license_options := by
  induction ks with
  | nil => intro a hm _; exact ⟨hm, rfl, rfl, rfl, rfl⟩
  | cons k ks ih =>
    intro a hm hks
    have hk : editOnly k = true := hks k (by simp)
    have hrest : ∀ k' ∈ ks, editOnly k' = true := fun k' h' => hks k' (by simp [h'])
    rw [run_cons]
    have hmode : ¬a.input_mode = InputMode.Navigation := by rw [hm]; intro h; cases h
    cases k with
    | char c =>
      have hstep : (step a (.char c)).1 = { a with input := a.input.push c } := by
        simp [step, stepEdit, hmode]
      rw [hstep]
      exact ih _ hm hrest
    | backspace =>
      have hstep : (step a .backspace).1 = { a with input := popStr a.input } := by
        simp [step, stepEdit, hmode]
      rw [hstep]
      exact ih _ hm hrest
    | down => exact absurd hk (by simp [editOnly])
    | up => exact absurd hk (by simp [editOnly])
    | enter => exact absurd hk (by simp [editOnly])
    | tab => exact absurd hk (by simp [editOnly])
    | esc => exact absurd hk (by simp [editOnly])
    | other => exact absurd hk (by simp [editOnly])

theorem getD_value_congr : ∀ (l1 l2 : List Field) (i : Nat),
    l1.map Field.value = l2.map Field.value →
    (l1.getD i defaultField).value = (l2.getD i defaultField).value
  | [], [], _, _ => rfl
  | [], _ :: _, _, h => by simp at h
  | _ :: _, [], _, h => by simp at h
  | f :: fs, g :: gs, 0, h => by
    simp only [List.map_cons, List.cons.injEq] at h
    simpa using h.1
  | f :: fs, g :: gs, i + 1, h => by
    simp only [List.map_cons, List.cons.injEq] at h
    simpa using getD_value_congr fs gs i h.2

theorem generate_preview_license_decomp (a : App) :
    ∃ p q, generate_preview a = p ++ ((licenseLeadIn ++ licenseOf a) ++ q) := by
  refine ⟨?_, authorsHdr ++ (authors_list (splitOnSemi (fieldVal a 12)) ++ footerPiece), ?_⟩
  · exact previewHead (fieldVal a 1) (fieldVal a 2)
      (String.intercalate "\n" (badges (fieldVal a 0))) (fieldVal a 0)
      (tech_line (tech_badges (splitOnSemi (fieldVal a 5)))) (fieldVal a 3)
      (features_list (splitOnSemi (fieldVal a 4)))
      (technologies_list (splitOnSemi (fieldVal a 5)))
      (prereq_list (splitOnSemi (fieldVal a 6)))
      (install_steps (splitOnSemi (fieldVal a 7)))
      (fieldVal a 8) (fieldVal a 9)
      (test_steps (splitOnSemi (fieldVal a 11))) (fieldVal a 10)
  · simp only [generate_preview, previewTemplate, String.append_assoc]

theorem generate_readme_license_decomp (a : App) :
    ∃ p q, generate_readme a = p ++ ((licenseLeadIn ++ licenseOf a) ++ q) := by
  refine ⟨?_, authorsHdr ++ (fieldVal a 12 ++ footerPiece), ?_⟩
  · exact finalHead (fieldVal a 1) (fieldVal a 2) (fieldVal a 0) (fieldVal a 3)
      (fieldVal a 4) (fieldVal a 5) (fieldVal a 6) (fieldVal a 7) (fieldVal a 8)
      (fieldVal a 9) (fieldVal a 11) (fieldVal a 10)
  · simp only [generate_readme, finalTemplate, String.append_assoc]

/-- C7: along every input sequence from the initial state, the active
field index stays strictly below the field count (which stays 13), and
the move-down input at the last index and the move-up input at index 0
leave the state unchanged. -/
theorem c7_index_always_in_range (ks : List KeyEvent) :
    (run App.default ks).current_field < (run App.default ks).fields.length ∧
    (run App.default ks).fields.length = 13 ∧
    ((run App.default ks).current_field = (run App.default ks).fields.length - 1 →
      (step (run App.default ks) .down).1 = run App.default ks) ∧
    ((run App.default ks).current_field = 0 →
      (step (run App.default ks) .up).1 = run App.default ks) := by
  refine ⟨run_current_lt ks App.default (by decide), ?_,
    fun h => step_down_noop _ h, fun h => step_up_noop _ h⟩
  rw [run_fields_length]
  rfl

/-- Closed instance of C7: the bounds facts and both boundary no-ops,
exercised at concrete input sequences (11 move-downs keep the index at
12 after the 12th, and move-up at the initial index 0 is a no-op). -/
theorem c7_witness :
    (step (run App.default (List.replicate 12 KeyEvent.down)) .down).1
        = run App.default (List.replicate 12 KeyEvent.down) ∧
    (step (run App.default []) .up).1 = run App.default [] :=
  ⟨(c7_index_always_in_range (List.replicate 12 KeyEvent.down)).2.2.1 (by decide),
   (c7_index_always_in_range []).2.2.2 rfl⟩

/-- C9: the renderers are deterministic functions of the field values and
the license state alone — two states with byte-for-byte identical field
values, the same license catalog and the same selected index render
identical preview documents and identical final documents, regardless of
the transient editor state (mode, buffer, active index). -/
theorem c9_render_deterministic (a b : App)
    (hf : a.fields.map Field.value = b.fields.map Field.value)
    (hl : a.license_options = b.license_options)
    (hs : a.selected_license = b.selected_license) :
    generate_preview a = generate_preview b ∧
    generate_readme a = generate_readme b := by
  have hv : ∀ i, fieldVal a i = fieldVal b i := fun i => getD_value_congr _ _ i hf
  have hlic : licenseOf a = licenseOf b := by unfold licenseOf; rw [hl, hs]
  constructor
  · simp only [generate_preview, hv, hlic]
  · simp only [generate_readme, hv, hlic]

/-- Closed instance of C9: the default state and a state with the same
field values but a different mode, buffer and active index render the
same documents. -/
theorem c9_witness :
    generate_preview App.default = generate_preview appOther ∧
    generate_readme App.default = generate_readme appOther :=
  c9_render_deterministic App.default appOther rfl rfl rfl

/-- C6: in Navigation mode the advance/submit (Tab) input leaves the
state unchanged, emits the complete signal exactly when every field value
is non-empty, is a no-op otherwise, and its outcome does not depend on
the selected license index. -/
theorem c6_submit_gate (a : App) (hm : a.input_mode = .Navigation) :
    (step a .tab).1 = a ∧
    ((step a .tab).2 = some .complete ↔ ∀ f ∈ a.fields, f.value ≠ "") ∧
    (all_fields_filled a = false → step a .tab = (a, none)) ∧
    (∀ j, step { a with selected_license := j } .tab
        = ({ a with selected_license := j }, (step a .tab).2)) := by
  have hfill : all_fields_filled a = true ↔ ∀ f ∈ a.fields, f.value ≠ "" := by
    rw [all_fields_filled, List.all_eq_true]
    constructor
    · intro h f hf e
      have hb := h f hf
      rw [e] at hb
      exact absurd hb (by decide)
    · intro h f hf
      rcases hb : f.value.isEmpty with _ | _
      · rfl
      · exact absurd ((String.isEmpty_iff f.value).mp hb) (h f hf)
  have hstep : step a .tab =
      (a, if all_fields_filled a then some Signal.complete else none) := by
    rw [step_nav a hm]
    simp only [stepNav]
    split <;> rfl
  refine ⟨by rw [hstep], ?_, ?_, ?_⟩
  · rw [hstep]
    rcases h : all_fields_filled a with _ | _
    · simp [← hfill, h]
    · simp [← hfill, h]
  · intro h
    rw [hstep, h]
    rfl
  · intro j
    have hm' : ({ a with selected_license := j } : App).input_mode = .Navigation := hm
    have hstep' : step { a with selected_license := j } .tab =
        ({ a with selected_license := j },
          if all_fields_filled a then some Signal.complete else none) := by
      rw [step_nav _ hm']
      simp only [stepNav]
      have he : all_fields_filled { a with selected_license := j } = all_fields_filled a := rfl
      rw [he]
      split <;> rfl
    rw [hstep', hstep]

/-- Closed instance of C6: with every field of `appSemis` filled, Tab is
accepted (complete signal, state unchanged) while the default license
index 0 is still selected. -/
theorem c6_witness :
    (step appSemis .tab).1 = appSemis ∧
    (step appSemis .tab).2 = some .complete ∧
    appSemis.selected_license = 0 := by
  have h := c6_submit_gate appSemis rfl
  exact ⟨h.1, h.2.1.mpr (by decide), rfl⟩

/-- C4: committing an edit (Enter in Editing mode) stores the edit buffer
verbatim into the active field; if the active field is not the last one,
the index advances, the buffer is pre-filled with the next field's
committed value and the mode stays Editing; at the last field the mode
returns to Navigation. -/
theorem c4_commit_advances (a : App) (hm : a.input_mode = .Editing)
    (hi : a.current_field < a.fields.length) :
    fieldVal ((step a .enter).1) a.current_field = a.input ∧
    (a.current_field < a.fields.length - 1 →
      ((step a .enter).1).current_field = a.current_field + 1 ∧
      ((step a .enter).1).input = fieldVal a (a.current_field + 1) ∧
      ((step a .enter).1).input_mode = .Editing) ∧
    (a.current_field = a.fields.length - 1 →
      ((step a .enter).1).input_mode = .Navigation ∧
      ((step a .enter).1).current_field = a.current_field) := by
  rw [step_edit a hm]
  simp only [stepEdit, setFieldValue_length]
  split
  case isTrue h =>
    refine ⟨setFieldValue_getD_self _ _ _ hi, fun _ => ⟨rfl, ?_, hm⟩,
      fun he => absurd h (by rw [he]; exact lt_irrefl _)⟩
    show (List.getD (setFieldValue a.fields a.current_field a.input)
        (a.current_field + 1) defaultField).value = fieldVal a (a.current_field + 1)
    rw [fieldVal, setFieldValue_getD_ne _ _ _ _ (Nat.succ_ne_self a.current_field)]
  case isFalse h =>
    exact ⟨setFieldValue_getD_self _ _ _ hi, fun hlt => absurd hlt h, fun _ => ⟨rfl, rfl⟩⟩

/-- Closed instance of C4: committing the buffer "hello" on field 0 of 13
stores it, advances to field 1, pre-fills the buffer with that field's
value and stays in Editing. -/
theorem c4_witness :
    fieldVal ((step appEditing .enter).1) 0 = "hello" ∧
    ((step appEditing .enter).1).current_field = 1 ∧
    ((step appEditing .enter).1).input = fieldVal appEditing 1 ∧
    ((step appEditing .enter).1).input_mode = .Editing := by
  have h := c4_commit_advances appEditing rfl (by decide)
  have h2 := h.2.1 (by decide)
  exact ⟨h.1, h2.1, h2.2.1, h2.2.2⟩

/-- C5: entering Editing from Navigation, applying any sequence of
printable-character and backspace edits to the buffer, then pressing
Escape returns to Navigation with every field's committed value (and the
whole registry, the active index and the license state) exactly as before
Editing was entered, and the buffer cleared. -/
theorem c5_escape_rollback (a0 : App) (ks : List KeyEvent)
    (h0 : a0.input_mode = .Navigation) (hks : ∀ k ∈ ks, editOnly k = true) :
    ((step (run ((step a0 .enter).1) ks) .esc).1).input_mode = .Navigation ∧
    ((step (run ((step a0 .enter).1) ks) .esc).1).fields = a0.fields ∧
    ((step (run ((step a0 .enter).1) ks) .esc).1).current_field = a0.current_field ∧
    ((step (run ((step a0 .enter).1) ks) .esc).1).selected_license = a0.selected_license ∧
    ((step (run ((step a0 .enter).1) ks) .esc).1).license_options = a0.license_options ∧
    ((step (run ((step a0 .enter).1) ks) .esc).1).input = "" := by
  have h1 : (step a0 .enter).1 =
      { a0 with input_mode := .Editing, input := fieldVal a0 a0.current_field } := by
    rw [step_nav a0 h0]
    rfl
  have hm1 : ((step a0 .enter).1).input_mode = .Editing := by rw [h1]
  obtain ⟨hm2, hf2, hc2, hs2, hl2⟩ := run_editOnly ks _ hm1 hks
  have hesc : (step (run ((step a0 .enter).1) ks) .esc).1 =
      { run ((step a0 .enter).1) ks with input := "", input_mode := .Navigation } := by
    rw [step_edit _ hm2]
    rfl
  rw [hesc]
  exact ⟨rfl, hf2.trans (by rw [h1]), hc2.trans (by rw [h1]),
    hs2.trans (by rw [h1]), hl2.trans (by rw [h1]), rfl⟩

/-- Closed instance of C5: from the default state, editing field 0 with
the keystrokes x, backspace, y and cancelling leaves the registry equal
to the default registry. -/
theorem c5_witness :
    ((step (run ((step App.default .enter).1)
        [KeyEvent.char 'x', KeyEvent.backspace, KeyEvent.char 'y']) .esc).1).fields
      = App.default.fields ∧
    ((step (run ((step App.default .enter).1)
        [KeyEvent.char 'x', KeyEvent.backspace, KeyEvent.char 'y']) .esc).1).input_mode
      = .Navigation := by
  have h := c5_escape_rollback App.default
    [KeyEvent.char 'x', KeyEvent.backspace, KeyEvent.char 'y'] rfl (by decide)
  exact ⟨h.2.1, h.1⟩

/-- C10: no input event ever modifies the selected license index, so every
reachable state keeps the default index 0; the license entry the renderers
resolve is the first catalog entry "MIT License", and both the preview and
the final document contain the MIT license line. -/
theorem c10_license_never_changes (ks : List KeyEvent) :
    (run App.default ks).selected_license = 0 ∧
    (∀ k, ((step (run App.default ks) k).1).selected_license
        = (run App.default ks).selected_license) ∧
    licenseOf (run App.default ks) = "MIT License" ∧
    ContainsStr (generate_preview (run App.default ks))
      "This project is licensed under the MIT License" ∧
    ContainsStr (generate_readme (run App.default ks))
      "This project is licensed under the MIT License" := by
  have hsel : (run App.default ks).selected_license = 0 := by
    rw [run_selected]
    rfl
  have hopt : (run App.default ks).license_options = App.default.license_options :=
    run_license_options ks App.default
  have hlic : licenseOf (run App.default ks) = "MIT License" := by
    rw [licenseOf, hsel, hopt]
    rfl
  have hneedle : "This project is licensed under the MIT License" =
      licenseLeadIn ++ "MIT License" := by decide
  refine ⟨hsel, fun k => step_selected _ k, hlic, ?_, ?_⟩
  · obtain ⟨p, q, hpq⟩ := generate_preview_license_decomp (run App.default ks)
    rw [hlic] at hpq
    exact ⟨p, q, by rw [hpq, hneedle]⟩
  · obtain ⟨p, q, hpq⟩ := generate_readme_license_decomp (run App.default ks)
    rw [hlic] at hpq
    exact ⟨p, q, by rw [hpq, hneedle]⟩

/-- C1 is falsified: there is an all-fields-filled state (every field a
non-empty string) on which the final-pass document differs from the
preview document, so the two call sites do not share one render
function. -/
theorem c1_counterexample :
    all_fields_filled appSemis = true ∧
    generate_preview appSemis ≠ generate_readme appSemis :=
  ⟨by decide, by decide⟩

/-- C1 (amended): the final pass uses a second template rather than the
preview renderer: on the filled state `appSemis` the final document
carries the multi-valued Features value "a; b ;c" verbatim and contains
no technology badge, while the preview splits, trims and bullets the same
value into "- a\n- b\n- c" and renders lower-cased technology badges. -/
theorem c1_two_renderers :
    all_fields_filled appSemis = true ∧
    strContainsSub (generate_readme appSemis) "a; b ;c" = true ∧
    strContainsSub (generate_preview appSemis) "a; b ;c" = false ∧
    strContainsSub (generate_preview appSemis) "- a\n- b\n- c" = true ∧
    strContainsSub (generate_preview appSemis) "![react]" = true ∧
    strContainsSub (generate_readme appSemis) "![react]" = false :=
  ⟨by decide, by decide, by decide, by decide, by decide, by decide⟩

/-- C2 is falsified: with the repository name and the usage example empty
(other fields filled), the preview substitutes the empty scalars verbatim
— the documentation link renders as "[Documentation](#)" and the usage
block is empty — and no bracketed repository or usage placeholder occurs;
only the badge-omission half of the claim holds. -/
theorem c2_counterexample :
    fieldVal appC2 0 = "" ∧
    strContainsSub (generate_preview appC2) "[Documentation](#)" = true ∧
    strContainsSub (generate_preview appC2) "<Repository" = false ∧
    strContainsSub (generate_preview appC2) "```bash\n\n```" = true ∧
    strContainsSub (generate_preview appC2) "<Usage" = false ∧
    strContainsSub (generate_preview appC2) "img.shields.io/github/stars" = false :=
  ⟨by decide, by decide, by decide, by decide, by decide, by decide⟩

/-- C2 (amended): when the repository-name field is empty the badge list
is empty, so the badge block of the preview renders as the empty string
(stars/forks/issues/license badges omitted); every scalar field,
including the empty repository name, is substituted verbatim — bracketed
placeholders exist only in the multi-valued list slots and the
technology-badge line. -/
theorem c2_badges_omitted (a : App) (h : fieldVal a 0 = "") :
    badges (fieldVal a 0) = [] ∧
    generate_preview a = previewTemplate (fieldVal a 1) (fieldVal a 2) "" ""
      (tech_line (tech_badges (splitOnSemi (fieldVal a 5)))) (fieldVal a 3)
      (features_list (splitOnSemi (fieldVal a 4)))
      (technologies_list (splitOnSemi (fieldVal a 5)))
      (prereq_list (splitOnSemi (fieldVal a 6)))
      (install_steps (splitOnSemi (fieldVal a 7)))
      (fieldVal a 8) (fieldVal a 9)
      (test_steps (splitOnSemi (fieldVal a 11)))
      (fieldVal a 10) (licenseOf a)
      (authors_list (splitOnSemi (fieldVal a 12))) := by
  have hb : badges (fieldVal a 0) = [] := by
    rw [h]
    rfl
  refine ⟨hb, ?_⟩
  simp only [generate_preview, hb, h]
  rfl

/-- Closed instance of C2 (amended): at `appC2` (empty repository name)
the badge list is empty. -/
theorem c2_witness : badges (fieldVal appC2 0) = [] :=
  (c2_badges_omitted appC2 (by decide)).1

/-- C3 is falsified: the raw value ";a" is non-empty, yet the preview
renders the placeholder for it instead of the split/trim/join of its two
pieces (the source guards on the first split piece, not on the raw
value). -/
theorem c3_counterexample :
    ((";a" : String) ≠ "") ∧
    features_list (splitOnSemi ";a") = "- <Features of your project>" ∧
    features_list (splitOnSemi ";a") ≠
      String.intercalate "\n" (((splitOnSemi ";a").map trimStr).map (fun i => "- " ++ i)) ∧
    strContainsSub (generate_preview appC3) "<Features of your project>" = true :=
  ⟨by decide, by decide, by decide, by decide⟩

theorem enum_map_trim (l : List String) :
    (l.map trimStr).enum.map (fun p => toString (p.1 + 1) ++ ". " ++ p.2) =
    l.enum.map (fun p => toString (p.1 + 1) ++ ". " ++ trimStr p.2) := by
  rw [List.enum_map, List.map_map]
  rfl

/-- C3 (amended): whenever the first semicolon-separated piece of the raw
value is non-empty, every list builder of the preview splits the raw
value on semicolons, trims each piece independently of the others, and
re-joins them with a bullet-marker prefix (features, technologies,
prerequisites, authors) or a 1-based position prefix (installation and
test steps). -/
theorem c3_split_trim_join (s : String)
    (h : (splitOnSemi s).headD "" ≠ "") :
    features_list (splitOnSemi s) =
      String.intercalate "\n" (((splitOnSemi s).map trimStr).map (fun i => "- " ++ i)) ∧
    technologies_list (splitOnSemi s) =
      String.intercalate "\n" (((splitOnSemi s).map trimStr).map (fun i => "- " ++ i)) ∧
    prereq_list (splitOnSemi s) =
      String.intercalate "\n" (((splitOnSemi s).map trimStr).map (fun i => "- " ++ i)) ∧
    authors_list (splitOnSemi s) =
      String.intercalate "\n" (((splitOnSemi s).map trimStr).map (fun i => "- " ++ i)) ∧
    install_steps (splitOnSemi s) =
      String.intercalate "\n" (((splitOnSemi s).map trimStr).enum.map
        (fun p => toString (p.1 + 1) ++ ". " ++ p.2)) ∧
    test_steps (splitOnSemi s) =
      String.intercalate "\n" (((splitOnSemi s).map trimStr).enum.map
        (fun p => toString (p.1 + 1) ++ ". " ++ p.2)) := by
  rcases he : splitOnSemi s with _ | ⟨x, xs⟩
  · exact absurd he (splitOnSemi_ne_nil s)
  · rw [he] at h
    have hx : x.isEmpty = false := by
      rcases hb : x.isEmpty with _ | _
      · rfl
      · exact absurd ((String.isEmpty_iff x).mp hb) (by simpa using h)
    refine ⟨?_, ?_, ?_, ?_, ?_, ?_⟩
    · simp [features_list, hx, List.map_map]
      rfl
    · simp [technologies_list, hx, List.map_map]
      rfl
    · simp [prereq_list, hx, List.map_map]
      rfl
    · simp [authors_list, hx, List.map_map]
      rfl
    · rw [enum_map_trim]
      simp [install_steps, hx]
    · rw [enum_map_trim]
      simp [test_steps, hx]

/-- Closed instance of C3 (amended): the input "a; b ;c" splits into the
trimmed items a, b, c and renders in both list styles. -/
theorem c3_witness :
    ((splitOnSemi "a; b ;c").headD "" ≠ "") ∧
    (splitOnSemi "a; b ;c").map trimStr = ["a", "b", "c"] ∧
    features_list (splitOnSemi "a; b ;c") = "- a\n- b\n- c" ∧
    install_steps (splitOnSemi "a; b ;c") = "1. a\n2. b\n3. c" ∧
    test_steps (splitOnSemi "a; b ;c") = "1. a\n2. b\n3. c" := by
  have h := c3_split_trim_join "a; b ;c" (by decide)
  refine ⟨by decide, by decide, ?_, ?_, ?_⟩
  · rw [h.1]; decide
  · rw [h.2.2.2.2.1]; decide
  · rw [h.2.2.2.2.2]; decide

/-- C8: a technology token contributes a badge exactly when it is
non-empty; each non-empty token is trimmed, lower-cased and wrapped into
an individual shields.io badge image reference, and when every token is
empty the badge list is empty and the technology-badge line falls back to
the placeholder string. -/
theorem c8_tech_badges_build (l : List String) :
    (tech_badges l = [] ↔ ∀ t ∈ l, t = "") ∧
    (tech_badges l = [] → tech_line (tech_badges l) = "<Technology badges>") ∧
    (∀ t ∈ l, t ≠ "" →
      ("![" ++ toLowerStr (trimStr t) ++ "](https://img.shields.io/badge/-" ++
        toLowerStr (trimStr t) ++ "-informational?style=flat-square&logo=" ++
        toLowerStr (trimStr t) ++ "&logoColor=white)") ∈ tech_badges l) := by
  refine ⟨?_, ?_, ?_⟩
  · simp [tech_badges, List.filter_eq_nil_iff, String.isEmpty_iff]
  · intro hnil
    rw [hnil]
    rfl
  · intro t ht hne
    have hp : (!t.isEmpty) = true := by
      rcases hb : t.isEmpty with _ | _
      · rfl
      · exact absurd ((String.isEmpty_iff t).mp hb) hne
    exact List.mem_map_of_mem _ (List.mem_filter.mpr ⟨ht, hp⟩)

/-- Closed instance of C8: the empty token list yields the placeholder
line; the token " TypeScript" yields its trimmed lower-cased badge, and
that trim/lower-casing evaluates to "typescript". -/
theorem c8_witness :
    tech_line (tech_badges (splitOnSemi "")) = "<Technology badges>" ∧
    ("![" ++ toLowerStr (trimStr " TypeScript") ++
      "](https://img.shields.io/badge/-" ++ toLowerStr (trimStr " TypeScript") ++
      "-informational?style=flat-square&logo=" ++ toLowerStr (trimStr " TypeScript") ++
      "&logoColor=white)") ∈ tech_badges (splitOnSemi "React; TypeScript") ∧
    toLowerStr (trimStr " TypeScript") = "typescript" := by
  refine ⟨(c8_tech_badges_build (splitOnSemi "")).2.1 (by decide), ?_, by decide⟩
  exact (c8_tech_badges_build (splitOnSemi "React; TypeScript")).2.2
    " TypeScript" (by decide) (by decide)

end Readme
